import Mathlib

/-!
# Verification of the Vromp navigation engine

Shallow embedding of the Vromp prototype's navigation logic
(`js/navigation.js`, `js/app.js`, `js/routing.js`, `js/utils.js`) and proofs
of the specified properties.

Modelling conventions:
* JS numbers that carry coordinates, distances and durations are modelled as
  `ℚ`; millisecond timestamps (`Date.now()`) as `ℤ`.
* The trigonometric Haversine distance `getDistanceMeters` is abstracted as a
  parameter `distM : ℚ × ℚ → ℚ × ℚ → ℚ` of every function that calls it; all
  properties proved here are control-flow properties that hold for every
  distance function, hence in particular for the Haversine one.
* JS `Infinity` (the initial minimum in `findClosestPointOnRoute`) is modelled
  by the dedicated type `QInf`.
* Nullable JS fields are modelled with `Option`; JS truthiness tests on
  numbers (`if (!x)`) are modelled by explicit helpers that also treat `0` as
  falsy, exactly as JS does.
* A JS `TypeError` (property access on `undefined`/`null`) is modelled by an
  `Option` result, `none` meaning the function throws.
-/

/-- A rational extended with the JS `Infinity` used as the initial minimum
distance in `findClosestPointOnRoute`. -/
inductive QInf where
  | inf : QInf
  | fin : ℚ → QInf
deriving DecidableEq

/-- JS comparison `q < d` where `d` may be `Infinity` (every rational is
below `Infinity`). -/
def QInf.qlt (q : ℚ) : QInf → Bool
  | .inf => true
  | .fin m => decide (q < m)

/-- JS comparison `d > q` where `d` may be `Infinity` (`Infinity > q` is
true in JS). -/
def QInf.gtQ : QInf → ℚ → Bool
  | .inf, _ => true
  | .fin m, q => decide (m > q)

/-- JS truthiness of a nullable timestamp: `null` and `0` are falsy. -/
def jsFalsyTime : Option ℤ → Bool
  | none => true
  | some t => decide (t = 0)

/-- JS `s || fallback` on strings: the empty string is falsy. -/
def jsOrStr (s fallback : String) : String :=
  if s = "" then fallback else s

/-- The coordinate pair actually passed to a distance computation for the
session's current position; a missing fix is represented by `(0, 0)` (the
universally quantified distance parameter covers the JS `NaN` behaviour of
a `null` position). -/
def posOr0 (p : Option (ℚ × ℚ)) : ℚ × ℚ :=
  p.getD (0, 0)

/-- JS `Math.floor` on a rational. -/
def jsMathFloor (q : ℚ) : ℤ :=
  Int.fdiv q.num (q.den : ℤ)

/-- JS `Math.round`: floor of `x + 1/2` (rounds half toward positive
infinity, as `Math.round` does). -/
def jsRound (q : ℚ) : ℤ :=
  jsMathFloor (q + 1/2)

/-- JS `Number.prototype.toFixed(1)` on a nonnegative rational: the integer
nearest to `10 * q` (ties toward the larger integer, per ECMA-262), printed
as `intPart.fracDigit`.  Only ever applied to nonnegative mileages here. -/
def toFixed1 (q : ℚ) : String :=
  let n : ℤ := jsMathFloor (q * 10 + 1/2)
  toString (Int.fdiv n 10) ++ "." ++ toString (Int.emod n 10)

/- ## Data model (`app.js` state and `routing.js` parsed route shape) -/

/-- A maneuver as parsed from OSRM by `parseRoute` (`routing.js`):
`{ type, modifier, location: {lat, lng} }`. -/
structure Maneuver where
  type : String
  modifier : Option String
  location : ℚ × ℚ
deriving DecidableEq

/-- One route step as parsed by `parseRoute` (`routing.js`). -/
structure Step where
  maneuver : Maneuver
  name : String
  distance : ℚ
  duration : ℚ
  geometry : List (ℚ × ℚ)
deriving DecidableEq

/-- A parsed route as returned by `parseRoute` (`routing.js`). -/
structure Route where
  distance : ℚ
  duration : ℚ
  geometry : List (ℚ × ℚ)
  steps : List Step
deriving DecidableEq

/-- A destination (`app.js` `destinations` entries).  `arrivalRadius` is
optional; `checkArrival` substitutes the default 75 via JS `||`. -/
structure Destination where
  coordinates : ℚ × ℚ
  arrivalRadius : Option ℚ
deriving DecidableEq

/-- The live app state (`app.js` `state`), restricted to the fields the
navigation engine reads or writes.  `currentPosition` starts as
`{lat: null, lng: null}` and is only ever set to a full fix, so it is
modelled as an optional pair. -/
structure NavState where
  tripActive : Bool
  arrived : Bool
  currentPosition : Option (ℚ × ℚ)
  destination : Option Destination
  routeGeometry : Option (List (ℚ × ℚ))
  routeSteps : List Step
  currentStepIndex : Nat
  distanceToRoute : Option QInf
  isOffRoute : Bool
  offRouteStartTime : Option ℤ
  isRerouting : Bool
  lastRerouteTime : Option ℤ
deriving DecidableEq

/- ## `utils.js`: formatting -/

/-- `formatDistance` (`utils.js`): meters to feet/miles; one decimal mile
when `miles >= 0.1`, otherwise feet rounded to the nearest 50. -/
def formatDistance (meters : ℚ) : String :=
  let feet := meters * (328084 / 100000)
  let miles := meters / (160934 / 100)
  if miles ≥ 1/10 then
    toFixed1 miles ++ " mi"
  else
    let roundedFeet := jsRound (feet / 50) * 50
    toString roundedFeet ++ " ft"

/-- `formatDuration` (`utils.js`): round to the nearest minute; an hour or
more is shown as `Hh Mm`.  `Math.floor(minutes / 60)` and `minutes % 60` are
modelled with `Int.fdiv`/`Int.emod`, which agree with JS on the nonnegative
values that occur. -/
def formatDuration (seconds : ℚ) : String :=
  let minutes := jsRound (seconds / 60)
  if minutes < 60 then
    toString minutes ++ " min"
  else
    toString (Int.fdiv minutes 60) ++ "h " ++ toString (Int.emod minutes 60) ++ "m"

/- ## `utils.js`: polyline decoding

The decoder works on the sequence of UTF-16 char codes of the encoded
string, modelled as `List ℕ`.  JS `result |= (b & 0x1f) << shift` is
modelled as `acc + b % 32 * 2 ^ shift`: the two agree because successive
5-bit groups occupy disjoint bit ranges (`acc < 2 ^ shift` is invariant),
and polyline data never reaches the 32-bit range where JS bitwise
operators would wrap.  A char code below 63 would give a negative `b` in
JS; such codes never occur in a polyline produced by the encoder. -/

/-- One varint group of `decodePolyline` (`utils.js`): the inner
`do { b = encoded.charCodeAt(index++) - 63; result |= (b & 0x1f) << shift;
shift += 5; } while (b >= 0x20)` loop.  Returns the accumulated group and
the remaining char codes.  Running off the end of the string makes
`charCodeAt` return `NaN` in JS, which contributes nothing and ends the
loop; this is the `[]` case. -/
def readVarint : List ℕ → ℕ → ℕ → ℕ × List ℕ
  | [], _, acc => (acc, [])
  | c :: rest, shift, acc =>
    let b := c - 63
    let acc' := acc + b % 32 * 2 ^ shift
    if 32 ≤ b then readVarint rest (shift + 5) acc'
    else (acc', rest)

/-- The zig-zag step of `decodePolyline` (`utils.js`):
`(result & 1) ? ~(result >> 1) : (result >> 1)`, with JS `~x = -x - 1`. -/
def zigzagDecode (r : ℕ) : ℤ :=
  if r % 2 = 1 then -((r / 2 : ℕ) : ℤ) - 1 else ((r / 2 : ℕ) : ℤ)

/-- The outer `while (index < encoded.length)` loop of `decodePolyline`
(`utils.js`).  Each iteration reads a latitude and a longitude varint group
and pushes `[lat / 1e5, lng / 1e5]`.  The loop consumes at least one char
code per iteration, so the fuel `encoded.length` used by `decodePolyline`
is never exhausted. -/
def decodeLoop : ℕ → List ℕ → ℤ → ℤ → List (ℚ × ℚ) → List (ℚ × ℚ)
  | _, [], _, _, acc => acc.reverse
  | 0, _ :: _, _, _, acc => acc.reverse
  | fuel + 1, c :: rest, lat, lng, acc =>
    let rlat := readVarint (c :: rest) 0 0
    let lat' := lat + zigzagDecode rlat.1
    let rlng := readVarint rlat.2 0 0
    let lng' := lng + zigzagDecode rlng.1
    decodeLoop fuel rlng.2 lat' lng' (((lat' : ℚ) / 100000, (lng' : ℚ) / 100000) :: acc)

/-- `decodePolyline` (`utils.js`) on the char codes of the encoded string. -/
def decodePolyline (encoded : List ℕ) : List (ℚ × ℚ) :=
  decodeLoop encoded.length encoded 0 0 []

/- ## Reference polyline encoder

The repository is decode-only; the spec asks for a round trip against a
reference encoder.  The encoder below is therefore modelled from the spec,
not from the source. -/

/-- Modelled from the spec: the missing reference encoder's zig-zag step at
1e-5 precision — a nonnegative delta `d` becomes `2d`, a negative delta
becomes `-2d - 1`. -/
def zigzagEncode (d : ℤ) : ℕ :=
  if d < 0 then (-2 * d - 1).toNat else (2 * d).toNat

/-- Modelled from the spec: the missing reference encoder's varint writer —
5 bits per output char, continuation bit `0x20`, offset 63.  Fuel-based;
`r + 1` units of fuel always suffice because the value shrinks by a factor
of 32 per emitted char. -/
def writeVarint : ℕ → ℕ → List ℕ
  | 0, r => [r + 63]
  | fuel + 1, r =>
    if r < 32 then [r + 63]
    else (r % 32 + 32 + 63) :: writeVarint fuel (r / 32)

/-- Modelled from the spec: one varint of the reference encoder. -/
def encodeVarint (r : ℕ) : List ℕ :=
  writeVarint (r + 1) r

/-- Modelled from the spec: the reference encoder's delta loop over
1e-5-scaled integer coordinates. -/
def encodeDeltas : List (ℤ × ℤ) → ℤ → ℤ → List ℕ
  | [], _, _ => []
  | (la, ln) :: rest, pla, pln =>
    encodeVarint (zigzagEncode (la - pla)) ++ encodeVarint (zigzagEncode (ln - pln)) ++
      encodeDeltas rest la ln

/-- Modelled from the spec: the missing reference polyline encoder over
coordinates representable at 1e-5 degree precision, given as 1e-5-scaled
integers. -/
def encodePolyline (ps : List (ℤ × ℤ)) : List ℕ :=
  encodeDeltas ps 0 0

/- ## `utils.js`: closest point on the route polyline -/

/-- `getClosestPointOnSegment` (`utils.js`): planar projection of `point`
onto the segment, parameter clamped to `[0, 1]`; `param` stays `-1` when
the segment is degenerate, selecting `lineStart`.  The final Haversine
distance call is the parameter `distM`. -/
def getClosestPointOnSegment (distM : ℚ × ℚ → ℚ × ℚ → ℚ)
    (point lineStart lineEnd : ℚ × ℚ) : (ℚ × ℚ) × ℚ :=
  let A := point.1 - lineStart.1
  let B := point.2 - lineStart.2
  let C := lineEnd.1 - lineStart.1
  let D := lineEnd.2 - lineStart.2
  let dot := A * C + B * D
  let lenSq := C * C + D * D
  let param := if lenSq ≠ 0 then dot / lenSq else -1
  let closest :=
    if param < 0 then lineStart
    else if param > 1 then lineEnd
    else (lineStart.1 + param * C, lineStart.2 + param * D)
  (closest, distM point closest)

/-- The result shape of `findClosestPointOnRoute` (`utils.js`):
`{point, distance, segmentIndex}` with `point` initially `null` and
`distance` initially `Infinity`. -/
structure ClosestResult where
  point : Option (ℚ × ℚ)
  distance : QInf
  segmentIndex : ℕ
deriving DecidableEq

/-- The `for (let i = 0; i < routeGeometry.length - 1; i++)` loop of
`findClosestPointOnRoute` (`utils.js`), walking consecutive pairs and
keeping the minimum-distance result. -/
def closestLoop (distM : ℚ × ℚ → ℚ × ℚ → ℚ) (pos : ℚ × ℚ) :
    List (ℚ × ℚ) → ℕ → ClosestResult → ClosestResult
  | a :: b :: rest, i, best =>
    let r := getClosestPointOnSegment distM pos a b
    let best' := if QInf.qlt r.2 best.distance then ⟨some r.1, QInf.fin r.2, i⟩ else best
    closestLoop distM pos (b :: rest) (i + 1) best'
  | _, _, best => best

/-- `findClosestPointOnRoute` (`utils.js`): minimum over all consecutive
segments, starting from the `{point: null, distance: Infinity,
segmentIndex: 0}` sentinel.  Fewer than 2 geometry points leave the
sentinel untouched. -/
def findClosestPointOnRoute (distM : ℚ × ℚ → ℚ × ℚ → ℚ) (pos : ℚ × ℚ)
    (routeGeometry : List (ℚ × ℚ)) : ClosestResult :=
  closestLoop distM pos routeGeometry 0 ⟨none, QInf.inf, 0⟩

/- ## `utils.js`: maneuver icons -/

/-- `getManeuverIcon` (`utils.js`). -/
def getManeuverIcon (ty : String) (modifier : Option String) : String :=
  if ty = "arrive" then "⚑"
  else if ty = "depart" then "↑"
  else if ty = "roundabout" ∨ ty = "rotary" then "⟳"
  else
    match modifier with
    | some "left" => "↰"
    | some "sharp left" => "↰"
    | some "slight left" => "↖"
    | some "right" => "↱"
    | some "sharp right" => "↱"
    | some "slight right" => "↗"
    | _ => "↑"

/- ## `navigation.js`: step tracking -/

/-- The `while (currentIndex < state.routeSteps.length - 1)` loop of
`determineCurrentStep` (`navigation.js`): a `depart` step is skipped
unconditionally; any other step is advanced past exactly when the distance
to its maneuver point is below the 30 m step-completion radius.  Fuel-based;
`determineCurrentStep` passes `routeSteps.length`, which always suffices
because the index grows by one per iteration and the loop stops at the last
step. -/
def advanceLoop (distM : ℚ × ℚ → ℚ × ℚ → ℚ) (steps : List Step) (pos : ℚ × ℚ) :
    ℕ → ℕ → ℕ
  | 0, i => i
  | fuel + 1, i =>
    if h : i < steps.length - 1 then
      let step := steps.get ⟨i, by omega⟩
      if step.maneuver.type = "depart" then
        advanceLoop distM steps pos fuel (i + 1)
      else if distM pos step.maneuver.location < 30 then
        advanceLoop distM steps pos fuel (i + 1)
      else i
    else i

/-- `determineCurrentStep` (`navigation.js`).  The Haversine distance is
the parameter `distM`.  An absent position (`lat: null`) is modelled by
`Option.getD`; the loop behaviour for it is covered by the universally
quantified `distM`. -/
def determineCurrentStep (distM : ℚ × ℚ → ℚ × ℚ → ℚ) (s : NavState) : ℕ :=
  if s.routeSteps.length = 0 then 0
  else
    advanceLoop distM s.routeSteps (posOr0 s.currentPosition)
      s.routeSteps.length s.currentStepIndex

/- ## `navigation.js`: instruction display -/

/-- The instruction record `{icon, roadName, distance}` produced by
`getCurrentInstruction` (`navigation.js`). -/
structure Instruction where
  icon : String
  roadName : String
  distance : String
deriving DecidableEq

/-- `getCurrentInstruction` (`navigation.js`).  `none` models a JS
`TypeError` (reading `.maneuver` of `undefined` when `currentStepIndex` is
out of range, or `.coordinates` of a `null` destination). -/
def getCurrentInstruction (distM : ℚ × ℚ → ℚ × ℚ → ℚ) (s : NavState) :
    Option Instruction :=
  if s.routeSteps.length = 0 then
    some ⟨"↑", "Calculating route...", ""⟩
  else
    match s.routeSteps.get? s.currentStepIndex with
    | none => none
    | some currentStep =>
      if currentStep.maneuver.type = "arrive" then
        match s.destination with
        | none => none
        | some d =>
          let distToDest := distM (posOr0 s.currentPosition) d.coordinates
          some ⟨"⚑", "Arrive at your destination", formatDistance distToDest⟩
      else
        let distanceToManeuver :=
          distM (posOr0 s.currentPosition) currentStep.maneuver.location
        let icon := getManeuverIcon currentStep.maneuver.type currentStep.maneuver.modifier
        if currentStep.maneuver.type = "depart" then
          match s.routeSteps.get? (s.currentStepIndex + 1) with
          | some nextStep =>
            let distToNext :=
              distM (posOr0 s.currentPosition) nextStep.maneuver.location
            some ⟨getManeuverIcon nextStep.maneuver.type nextStep.maneuver.modifier,
                  jsOrStr nextStep.name "the road", formatDistance distToNext⟩
          | none =>
            some ⟨icon, jsOrStr currentStep.name "the road", formatDistance distanceToManeuver⟩
        else if distanceToManeuver > 321869 / 100 then
          some ⟨icon, "Continue on " ++ currentStep.name, formatDistance distanceToManeuver⟩
        else
          some ⟨icon, jsOrStr currentStep.name "the road", formatDistance distanceToManeuver⟩

/- ## `navigation.js`: arrival -/

/-- `checkArrival` (`navigation.js`).  The guard
`!state.destination || !state.currentPosition.lat` is falsy-true for a
`null` destination, a missing fix, and also for a latitude of exactly 0;
`destination.arrivalRadius || NAV_CONFIG.arrivalRadius` likewise treats a
radius of `0` as absent. -/
def checkArrival (distM : ℚ × ℚ → ℚ × ℚ → ℚ) (s : NavState) : Bool :=
  match s.destination, s.currentPosition with
  | none, _ => false
  | some _, none => false
  | some d, some pos =>
    if pos.1 = 0 then false
    else
      let distToDest := distM pos d.coordinates
      let arrivalRadius :=
        match d.arrivalRadius with
        | some r => if r = 0 then (75 : ℚ) else r
        | none => (75 : ℚ)
      decide (distToDest ≤ arrivalRadius)

/- ## `app.js`: rerouting -/

/-- `handleReroute` (`app.js`), the single awaited reroute operation,
collapsed into one atomic step whose fetch outcome is the parameter
`fetch` (`some r` = `performReroute` resolved with `r`, `none` = it threw).
The returned `Bool` records whether the route provider was invoked at all
(`false` = the debounce made the call a no-op).  `isRerouting` is set on
entry and cleared in `finally`, so the completed operation always leaves it
`false`. -/
def handleReroute (s : NavState) (now : ℤ) (fetch : Option Route) : NavState × Bool :=
  if jsFalsyTime s.lastRerouteTime = false ∧ now - s.lastRerouteTime.getD 0 < 10000 then
    (s, false)
  else
    match fetch with
    | some newRoute =>
      ({ s with isRerouting := false,
                routeGeometry := some newRoute.geometry,
                routeSteps := newRoute.steps,
                currentStepIndex := 0,
                lastRerouteTime := some now,
                offRouteStartTime := none,
                isOffRoute := false }, true)
    | none => ({ s with isRerouting := false }, true)

/-- `checkOffRoute` (`app.js`).  The returned `Bool` records whether
`handleReroute` was invoked (a reroute was requested) during this cycle. -/
def checkOffRoute (distM : ℚ × ℚ → ℚ × ℚ → ℚ) (s : NavState) (now : ℤ)
    (fetch : Option Route) : NavState × Bool :=
  match s.routeGeometry with
  | none => (s, false)
  | some geom =>
    if geom.length = 0 then (s, false)
    else
      let closest := findClosestPointOnRoute distM (posOr0 s.currentPosition) geom
      let s1 := { s with distanceToRoute := some closest.distance }
      if closest.distance.gtQ 75 then
        if jsFalsyTime s1.offRouteStartTime then
          ({ s1 with offRouteStartTime := some now, isOffRoute := true }, false)
        else if 3000 ≤ now - s1.offRouteStartTime.getD 0 ∧ s1.isRerouting = false then
          ((handleReroute s1 now fetch).1, true)
        else (s1, false)
      else
        ({ s1 with isOffRoute := false, offRouteStartTime := none }, false)

/- ## Concrete fixtures used by witnesses and counterexamples -/

/-- A distance function returning 100 m for every query. -/
def dist100 : ℚ × ℚ → ℚ × ℚ → ℚ := fun _ _ => 100

/-- A distance function returning 4000 m for every query. -/
def dist4000 : ℚ × ℚ → ℚ × ℚ → ℚ := fun _ _ => 4000

/-- A distance function returning 10 m for every query. -/
def dist10 : ℚ × ℚ → ℚ × ℚ → ℚ := fun _ _ => 10

/-- A `depart` step whose maneuver point is the trip start. -/
def fxDepart : Step := ⟨⟨"depart", none, (0, 0)⟩, "A St", 10, 5, []⟩

/-- A left-turn step. -/
def fxTurn : Step := ⟨⟨"turn", some "left", (1, 1)⟩, "B St", 12, 6, []⟩

/-- A terminal `arrive` step. -/
def fxArrive : Step := ⟨⟨"arrive", none, (2, 2)⟩, "C St", 14, 7, []⟩

/-- A base session: active trip, position fix at (5, 5), a three-step route,
no destination, no route geometry, no pending off-route state. -/
def fxState : NavState :=
  { tripActive := true, arrived := false, currentPosition := some (5, 5),
    destination := none, routeGeometry := none,
    routeSteps := [fxDepart, fxTurn, fxArrive], currentStepIndex := 0,
    distanceToRoute := none, isOffRoute := false, offRouteStartTime := none,
    isRerouting := false, lastRerouteTime := none }

/-- A route payload used as a successful reroute fetch result. -/
def fxRoute : Route := ⟨500, 60, [(0, 0), (1, 1)], [fxTurn, fxArrive]⟩

/- ## C8 -/

/-- C8 counterexample: `formatDistance(100)` is not `"300 ft"` — 100 m is
328.084 ft, and the nearest multiple of 50 is 350, so the code returns
`"350 ft"`. -/
theorem c8_formatDistance_100_counterexample : formatDistance 100 ≠ "300 ft" := by
  have h : formatDistance 100 = "350 ft" := by with_unfolding_all rfl
  rw [h]; decide

/-- C8 (amended): `formatDistance(1609.34) = "1.0 mi"`,
`formatDistance(100) = "350 ft"` (100 m is 328.084 ft, which rounds to the
nearest 50 ft as 350), `formatDuration(125) = "2 min"`, and
`formatDuration(3660) = "1h 1m"`. -/
theorem c8_formatting_values :
    formatDistance (160934 / 100) = "1.0 mi" ∧ formatDistance 100 = "350 ft" ∧
    formatDuration 125 = "2 min" ∧ formatDuration 3660 = "1h 1m" :=
  ⟨by with_unfolding_all rfl, by with_unfolding_all rfl,
   by with_unfolding_all rfl, by with_unfolding_all rfl⟩

/- ## C10 -/

/-- C10: `checkArrival` returns `false` whenever the session's destination
is `null` or the current position has no latitude fix, regardless of every
other state field, so arrival is never reported before the first position
sample. -/
theorem c10_checkArrival_guard (distM : ℚ × ℚ → ℚ × ℚ → ℚ) (s : NavState)
    (h : s.destination = none ∨ s.currentPosition = none) :
    checkArrival distM s = false := by
  rcases h with h | h
  · simp [checkArrival, h]
  · cases hd : s.destination <;> simp [checkArrival, h, hd]

/-- C10 witness: the base fixture has no destination, and `checkArrival`
rejects it. -/
theorem c10_checkArrival_guard_witness : checkArrival dist100 fxState = false :=
  c10_checkArrival_guard dist100 fxState (Or.inl rfl)

/- ## C4 -/

/-- C4: when the reroute fetch actually runs (the call was not debounced
away) and fails, `handleReroute` leaves `routeGeometry`, `routeSteps`,
`currentStepIndex` and `lastRerouteTime` untouched; and in both the failure
and the success outcome the completed operation leaves `isRerouting`
false. -/
theorem c4_handleReroute_failure (s : NavState) (now : ℤ) (r : Route)
    (sFail sOk : NavState)
    (hfail : handleReroute s now none = (sFail, true))
    (hsucc : handleReroute s now (some r) = (sOk, true)) :
    sFail.routeGeometry = s.routeGeometry ∧ sFail.routeSteps = s.routeSteps ∧
    sFail.currentStepIndex = s.currentStepIndex ∧
    sFail.lastRerouteTime = s.lastRerouteTime ∧
    sFail.isRerouting = false ∧ sOk.isRerouting = false := by
  by_cases hdb : jsFalsyTime s.lastRerouteTime = false ∧
      now - s.lastRerouteTime.getD 0 < 10000
  · simp [handleReroute, hdb] at hfail
  · simp [handleReroute, hdb] at hfail hsucc
    subst hfail
    subst hsucc
    simp

/-- C4 witness: with no previous reroute timestamp the fetch runs; the
failure outcome preserves the route fields and both outcomes clear
`isRerouting`. -/
theorem c4_handleReroute_failure_witness :
    (handleReroute fxState 5000 none).1.routeSteps = fxState.routeSteps ∧
    (handleReroute fxState 5000 none).1.isRerouting = false ∧
    (handleReroute fxState 5000 (some fxRoute)).1.isRerouting = false := by
  have h := c4_handleReroute_failure fxState 5000 fxRoute
    (handleReroute fxState 5000 none).1 (handleReroute fxState 5000 (some fxRoute)).1
    (by with_unfolding_all rfl) (by with_unfolding_all rfl)
  exact ⟨h.2.1, h.2.2.2.2.1, h.2.2.2.2.2⟩

/- ## C3 -/

/-- C3 counterexample: `handleReroute` does not check `isRerouting`.
Called on a session with `isRerouting = true` and no previous reroute
timestamp, it still invokes the route provider. -/
theorem c3_handleReroute_counterexample :
    ({ fxState with isRerouting := true } : NavState).isRerouting = true ∧
    (handleReroute { fxState with isRerouting := true } 5000 none).2 = true := by
  constructor
  · rfl
  · with_unfolding_all rfl

/-- C3 (amended): `handleReroute` is a no-op — no provider call and no
state change — whenever `lastRerouteTime` holds a positive timestamp less
than 10000 ms old; the `isRerouting` guard is not in `handleReroute` itself
but in `checkOffRoute`, which never requests a reroute while `isRerouting`
is true; and after a successful reroute at time `t1`, any `handleReroute`
call less than 10000 ms later is a no-op, so two qualifying off-route
triggers within 10 s, the first of whose fetches succeeds, produce exactly
one route-provider call. -/
theorem c3_reroute_debounce :
    (∀ (s : NavState) (now : ℤ) (fetch : Option Route) (t : ℤ),
      s.lastRerouteTime = some t → t ≠ 0 → now - t < 10000 →
      handleReroute s now fetch = (s, false))
  ∧ (∀ (distM : ℚ × ℚ → ℚ × ℚ → ℚ) (s : NavState) (now : ℤ) (fetch : Option Route),
      (checkOffRoute distM s now fetch).2 = true → s.isRerouting = false)
  ∧ (∀ (s : NavState) (t1 : ℤ) (r : Route) (s1 : NavState) (now2 : ℤ)
      (fetch2 : Option Route), 0 < t1 →
      handleReroute s t1 (some r) = (s1, true) → now2 - t1 < 10000 →
      handleReroute s1 now2 fetch2 = (s1, false)) := by
  refine ⟨?_, ?_, ?_⟩
  · intro s now fetch t ht htz hlt
    simp [handleReroute, jsFalsyTime, ht, htz, hlt]
  · intro distM s now fetch h
    rcases hg : s.routeGeometry with _ | geom
    · simp [checkOffRoute, hg] at h
    · simp only [checkOffRoute, hg] at h
      split_ifs at h with h1 h2 h3 h4
      all_goals simp_all
  · intro s t1 r s1 now2 fetch2 ht1 hsucc hlt
    have ht1' : t1 ≠ 0 := by omega
    by_cases hdb : jsFalsyTime s.lastRerouteTime = false ∧
        t1 - s.lastRerouteTime.getD 0 < 10000
    · simp [handleReroute, hdb] at hsucc
    · simp [handleReroute, hdb] at hsucc
      subst hsucc
      simp [handleReroute, jsFalsyTime, ht1', hlt]

/-- A session that is about to trigger a reroute: two-point geometry,
off-route since time 100, not currently rerouting. -/
def fxTrigger : NavState :=
  { fxState with routeGeometry := some [(0, 0), (1, 1)], offRouteStartTime := some 100 }

/-- A session with a recent successful reroute at time 8000. -/
def fxRecent : NavState := { fxState with lastRerouteTime := some 8000 }

/-- C3 witness: a call 7000 ms after the last reroute is debounced to a
no-op; the trigger fixture requests a reroute only with `isRerouting`
false; and a second call 4900 ms after a successful reroute at time 100 is
a no-op on the post-success state. -/
theorem c3_reroute_debounce_witness :
    handleReroute fxRecent 15000 none = (fxRecent, false) ∧
    fxTrigger.isRerouting = false ∧
    handleReroute (handleReroute fxState 100 (some fxRoute)).1 5000 none =
      ((handleReroute fxState 100 (some fxRoute)).1, false) := by
  refine ⟨?_, ?_, ?_⟩
  · exact c3_reroute_debounce.1 fxRecent 15000 none 8000 rfl (by decide) (by decide)
  · exact c3_reroute_debounce.2.1 dist100 fxTrigger 3500 none (by with_unfolding_all rfl)
  · exact c3_reroute_debounce.2.2 fxState 100 fxRoute
      (handleReroute fxState 100 (some fxRoute)).1 5000 none (by decide)
      (by with_unfolding_all rfl) (by decide)

/- ## C5 -/

/-- A session whose route geometry is a single point. -/
def fxOnePoint : NavState := { fxState with routeGeometry := some [(0, 0)] }

/-- C5 counterexample: on a route geometry with exactly one point — fewer
than 2 — the off-route check does not treat the Infinity sentinel as "no
signal": starting from an unset `offRouteStartTime` it sets the timer to
the current time. -/
theorem c5_one_point_counterexample :
    fxOnePoint.offRouteStartTime = none ∧
    (checkOffRoute dist100 fxOnePoint 42 none).1.offRouteStartTime = some 42 := by
  constructor
  · rfl
  · with_unfolding_all rfl

/-- C5 (amended): `findClosestPointOnRoute` returns the infinite-distance
sentinel (`distance = Infinity`, no closest point) for every geometry with
fewer than 2 points, and `checkOffRoute` skips the cycle — leaving the
session unchanged and requesting no reroute — only when the geometry is
absent or empty; for a one-point geometry the Infinity sentinel is treated
as over-threshold, so a check with `offRouteStartTime` unset starts the
off-route timer (still without requesting a reroute on that cycle). -/
theorem c5_geometry_sentinel :
    (∀ (distM : ℚ × ℚ → ℚ × ℚ → ℚ) (pos : ℚ × ℚ) (geom : List (ℚ × ℚ)),
      geom.length < 2 → findClosestPointOnRoute distM pos geom = ⟨none, QInf.inf, 0⟩)
  ∧ (∀ (distM : ℚ × ℚ → ℚ × ℚ → ℚ) (s : NavState) (now : ℤ) (fetch : Option Route),
      s.routeGeometry = none ∨ s.routeGeometry = some [] →
      checkOffRoute distM s now fetch = (s, false))
  ∧ (∀ (distM : ℚ × ℚ → ℚ × ℚ → ℚ) (s : NavState) (now : ℤ) (fetch : Option Route)
      (p : ℚ × ℚ), s.routeGeometry = some [p] → s.offRouteStartTime = none →
      checkOffRoute distM s now fetch =
        ({ s with distanceToRoute := some QInf.inf, offRouteStartTime := some now,
                  isOffRoute := true }, false)) := by
  refine ⟨?_, ?_, ?_⟩
  · intro distM pos geom h
    match geom with
    | [] => simp [findClosestPointOnRoute, closestLoop]
    | [p] => simp [findClosestPointOnRoute, closestLoop]
    | a :: b :: rest => exact absurd h (by simp)
  · intro distM s now fetch h
    rcases h with h | h
    · simp [checkOffRoute, h]
    · simp [checkOffRoute, h]
  · intro distM s now fetch p hg ht
    simp [checkOffRoute, hg, findClosestPointOnRoute, closestLoop, QInf.gtQ,
      jsFalsyTime, ht]

/-- C5 witness: the sentinel on an empty geometry, the unchanged-session
no-op on an empty route geometry, and the timer start on a one-point
geometry, all at concrete inputs. -/
theorem c5_geometry_sentinel_witness :
    findClosestPointOnRoute dist100 (5, 5) [] = ⟨none, QInf.inf, 0⟩ ∧
    checkOffRoute dist100 { fxState with routeGeometry := some [] } 42 none =
      ({ fxState with routeGeometry := some [] }, false) ∧
    checkOffRoute dist100 fxOnePoint 77 none =
      ({ fxOnePoint with distanceToRoute := some QInf.inf, offRouteStartTime := some 77,
                         isOffRoute := true }, false) := by
  refine ⟨?_, ?_, ?_⟩
  · exact c5_geometry_sentinel.1 dist100 (5, 5) [] (by decide)
  · exact c5_geometry_sentinel.2.1 dist100 _ 42 none (Or.inr rfl)
  · exact c5_geometry_sentinel.2.2 dist100 fxOnePoint 77 none (0, 0) rfl rfl

/- ## C1 -/

/-- C1: with a route geometry of at least 2 points, (i) an over-threshold
check with `offRouteStartTime` unset records the current time and requests
no reroute; (ii) a reroute is requested only when a check finds
`offRouteStartTime` set, at least 3000 ms elapsed, and `isRerouting`
false; (iii) a check at distance at most 75 m clears `offRouteStartTime`
unconditionally and requests nothing. -/
theorem c1_offroute_monitor :
    (∀ (distM : ℚ × ℚ → ℚ × ℚ → ℚ) (s : NavState) (now : ℤ) (fetch : Option Route)
      (geom : List (ℚ × ℚ)), s.routeGeometry = some geom → 2 ≤ geom.length →
      QInf.gtQ (findClosestPointOnRoute distM (posOr0 s.currentPosition) geom).distance
        75 = true →
      s.offRouteStartTime = none →
      checkOffRoute distM s now fetch =
        ({ s with
            distanceToRoute :=
              some (findClosestPointOnRoute distM (posOr0 s.currentPosition)
                geom).distance,
            offRouteStartTime := some now, isOffRoute := true }, false))
  ∧ (∀ (distM : ℚ × ℚ → ℚ × ℚ → ℚ) (s : NavState) (now : ℤ) (fetch : Option Route),
      (checkOffRoute distM s now fetch).2 = true →
      ∃ t0, s.offRouteStartTime = some t0 ∧ 3000 ≤ now - t0 ∧ s.isRerouting = false)
  ∧ (∀ (distM : ℚ × ℚ → ℚ × ℚ → ℚ) (s : NavState) (now : ℤ) (fetch : Option Route)
      (geom : List (ℚ × ℚ)), s.routeGeometry = some geom → 2 ≤ geom.length →
      QInf.gtQ (findClosestPointOnRoute distM (posOr0 s.currentPosition) geom).distance
        75 = false →
      (checkOffRoute distM s now fetch).1.offRouteStartTime = none ∧
      (checkOffRoute distM s now fetch).2 = false) := by
  refine ⟨?_, ?_, ?_⟩
  · intro distM s now fetch geom hg hlen hfar ht
    have h0 : ¬geom.length = 0 := by omega
    simp [checkOffRoute, hg, h0, hfar, jsFalsyTime, ht]
  · intro distM s now fetch h
    rcases hg : s.routeGeometry with _ | geom
    · simp [checkOffRoute, hg] at h
    · simp only [checkOffRoute, hg] at h
      split_ifs at h with h1 h2 h3 h4
      all_goals simp at h
      rcases ho : s.offRouteStartTime with _ | t0
      · rw [ho] at h3
        simp [jsFalsyTime] at h3
      · refine ⟨t0, rfl, ?_, h4.2⟩
        have h41 := h4.1
        rw [ho] at h41
        simpa using h41
  · intro distM s now fetch geom hg hlen hnear
    have h0 : ¬geom.length = 0 := by omega
    simp [checkOffRoute, hg, h0, hnear]

/-- A session with a two-point route geometry and no pending off-route
timer. -/
def fxTwoPoint : NavState := { fxState with routeGeometry := some [(0, 0), (1, 1)] }

/-- C1 witness: at 100 m the first over-threshold check starts the timer
without rerouting; the trigger fixture's request satisfies the
3000 ms/`isRerouting` conditions; at 10 m the pending timer is cleared. -/
theorem c1_offroute_monitor_witness :
    checkOffRoute dist100 fxTwoPoint 42 none =
      ({ fxTwoPoint with
          distanceToRoute :=
            some (findClosestPointOnRoute dist100 (posOr0 fxTwoPoint.currentPosition)
              [(0, 0), (1, 1)]).distance,
          offRouteStartTime := some 42, isOffRoute := true }, false) ∧
    (∃ t0, fxTrigger.offRouteStartTime = some t0 ∧ 3000 ≤ 3500 - t0 ∧
      fxTrigger.isRerouting = false) ∧
    (checkOffRoute dist10 fxTrigger 3500 none).1.offRouteStartTime = none ∧
    (checkOffRoute dist10 fxTrigger 3500 none).2 = false := by
  refine ⟨?_, ?_, ?_⟩
  · exact c1_offroute_monitor.1 dist100 fxTwoPoint 42 none [(0, 0), (1, 1)] rfl
      (by decide) (by with_unfolding_all rfl) rfl
  · exact c1_offroute_monitor.2.1 dist100 fxTrigger 3500 none (by with_unfolding_all rfl)
  · exact c1_offroute_monitor.2.2 dist10 fxTrigger 3500 none [(0, 0), (1, 1)] rfl
      (by decide) (by with_unfolding_all rfl)

/- ## C9 -/

/-- A session whose only step is the left-turn step. -/
def fxContinue : NavState := { fxState with routeSteps := [fxTurn], currentStepIndex := 0 }

/-- C9 counterexample: at 4000 m (beyond the 3218.69 m long-stretch
threshold) from a left-turn maneuver, `getCurrentInstruction` produces the
"Continue on" wording but still carries the left-turn icon `↰`, not an
icon-free instruction. -/
theorem c9_long_stretch_counterexample :
    getCurrentInstruction dist4000 fxContinue =
      some ⟨"↰", "Continue on B St", "2.5 mi"⟩ ∧ ("↰" : String) ≠ "↑" := by
  constructor
  · with_unfolding_all rfl
  · decide

/-- C9 (amended): when the current step's maneuver is neither `arrive` nor
`depart` and its maneuver point lies beyond the 3218.69 m long-stretch
threshold, `getCurrentInstruction` returns a `Continue on <road>`
instruction that still carries the current maneuver's icon. -/
theorem c9_long_stretch (distM : ℚ × ℚ → ℚ × ℚ → ℚ) (s : NavState) (step : Step)
    (hstep : s.routeSteps.get? s.currentStepIndex = some step)
    (harr : step.maneuver.type ≠ "arrive") (hdep : step.maneuver.type ≠ "depart")
    (hfar : distM (posOr0 s.currentPosition) step.maneuver.location > 321869 / 100) :
    getCurrentInstruction distM s =
      some ⟨getManeuverIcon step.maneuver.type step.maneuver.modifier,
            "Continue on " ++ step.name,
            formatDistance (distM (posOr0 s.currentPosition) step.maneuver.location)⟩ := by
  have hlt : s.currentStepIndex < s.routeSteps.length := by
    by_contra hge
    rw [List.get?_eq_none.mpr (by omega)] at hstep
    exact Option.noConfusion hstep
  have hne : ¬s.routeSteps.length = 0 := by omega
  have hstep' := hstep
  rw [List.get?_eq_getElem?] at hstep'
  simp [getCurrentInstruction, hne, hstep', harr, hdep, hfar]

/-- C9 witness: the amended statement evaluated on the one-step fixture at
4000 m. -/
theorem c9_long_stretch_witness :
    getCurrentInstruction dist4000 fxContinue =
      some ⟨getManeuverIcon fxTurn.maneuver.type fxTurn.maneuver.modifier,
            "Continue on " ++ fxTurn.name,
            formatDistance (dist4000 (posOr0 fxContinue.currentPosition)
              fxTurn.maneuver.location)⟩ :=
  c9_long_stretch dist4000 fxContinue fxTurn rfl (by decide) (by decide)
    (of_decide_eq_true (by with_unfolding_all rfl))

/- ## Step-loop lemmas shared by the step-advancement results -/

/-- Once the index is at (or past) the last step, the step loop stops
immediately, whatever fuel remains. -/
theorem advanceLoop_stop (distM : ℚ × ℚ → ℚ × ℚ → ℚ) (steps : List Step) (pos : ℚ × ℚ)
    (fuel i : ℕ) (h : ¬i < steps.length - 1) :
    advanceLoop distM steps pos fuel i = i := by
  cases fuel with
  | zero => rfl
  | succ f => simp [advanceLoop, h]

/-- One extra unit of fuel changes nothing once the fuel covers the
remaining distance to the last step. -/
theorem advanceLoop_fuel_succ (distM : ℚ × ℚ → ℚ × ℚ → ℚ) (steps : List Step)
    (pos : ℚ × ℚ) :
    ∀ fuel i, steps.length - 1 - i ≤ fuel →
      advanceLoop distM steps pos (fuel + 1) i = advanceLoop distM steps pos fuel i := by
  intro fuel
  induction fuel with
  | zero =>
    intro i h
    have hi : ¬i < steps.length - 1 := by omega
    rw [advanceLoop_stop distM steps pos 1 i hi, advanceLoop_stop distM steps pos 0 i hi]
  | succ f ih =>
    intro i h
    by_cases hi : i < steps.length - 1
    · rw [advanceLoop]
      conv_rhs => rw [advanceLoop]
      rw [dif_pos hi, dif_pos hi]
      have hrec := ih (i + 1) (by omega)
      dsimp only
      split_ifs <;> simp [hrec]
    · rw [advanceLoop_stop distM steps pos (f + 1 + 1) i hi,
        advanceLoop_stop distM steps pos (f + 1) i hi]

/-- Any two sufficient fuels give the same step loop result. -/
theorem advanceLoop_fuel_eq (distM : ℚ × ℚ → ℚ × ℚ → ℚ) (steps : List Step)
    (pos : ℚ × ℚ) (fuel1 fuel2 i : ℕ) (h1 : steps.length - 1 - i ≤ fuel1)
    (h2 : steps.length - 1 - i ≤ fuel2) :
    advanceLoop distM steps pos fuel1 i = advanceLoop distM steps pos fuel2 i := by
  have key : ∀ k fuel, steps.length - 1 - i ≤ fuel →
      advanceLoop distM steps pos (fuel + k) i = advanceLoop distM steps pos fuel i := by
    intro k
    induction k with
    | zero => intro fuel h; rfl
    | succ m ih =>
      intro fuel h
      rw [show fuel + (m + 1) = fuel + m + 1 from rfl,
        advanceLoop_fuel_succ distM steps pos (fuel + m) i (by omega), ih fuel h]
  have e1 := key (fuel1 - (steps.length - 1 - i)) (steps.length - 1 - i) (le_refl _)
  have e2 := key (fuel2 - (steps.length - 1 - i)) (steps.length - 1 - i) (le_refl _)
  rw [show fuel1 = steps.length - 1 - i + (fuel1 - (steps.length - 1 - i)) by omega, e1,
    show fuel2 = steps.length - 1 - i + (fuel2 - (steps.length - 1 - i)) by omega, e2]

/-- Re-running the step loop on its own result changes nothing. -/
theorem advanceLoop_idem (distM : ℚ × ℚ → ℚ × ℚ → ℚ) (steps : List Step) (pos : ℚ × ℚ) :
    ∀ fuel i, steps.length - 1 - i ≤ fuel →
      advanceLoop distM steps pos steps.length (advanceLoop distM steps pos fuel i) =
        advanceLoop distM steps pos fuel i := by
  intro fuel
  induction fuel with
  | zero =>
    intro i h
    have hi : ¬i < steps.length - 1 := by omega
    rw [show advanceLoop distM steps pos 0 i = i from rfl,
      advanceLoop_stop distM steps pos steps.length i hi]
  | succ f ih =>
    intro i h
    by_cases hi : i < steps.length - 1
    · rw [advanceLoop, dif_pos hi]
      dsimp only
      split_ifs with hdep hdist
      · exact ih (i + 1) (by omega)
      · exact ih (i + 1) (by omega)
      · obtain ⟨m, hm⟩ : ∃ m, steps.length = m + 1 := ⟨steps.length - 1, by omega⟩
        rw [hm, advanceLoop, dif_pos (show i < steps.length - 1 from hi), if_neg hdep,
          if_neg hdist]
    · rw [advanceLoop_stop distM steps pos (f + 1) i hi,
        advanceLoop_stop distM steps pos steps.length i hi]

/- ## C6 -/

/-- C6: `determineCurrentStep` is idempotent — re-invoking it with the
position unchanged and `currentStepIndex` set to the index it just
returned yields that same index, for every session and every distance
function. -/
theorem c6_determineCurrentStep_idem (distM : ℚ × ℚ → ℚ × ℚ → ℚ) (s : NavState) :
    determineCurrentStep distM { s with currentStepIndex := determineCurrentStep distM s } =
      determineCurrentStep distM s := by
  by_cases hlen : s.routeSteps.length = 0
  · simp [determineCurrentStep, hlen]
  · simp only [determineCurrentStep, hlen, if_false]
    exact advanceLoop_idem distM s.routeSteps (posOr0 s.currentPosition)
      s.routeSteps.length s.currentStepIndex (by omega)

/- ## C2 -/

/-- C2 counterexample: the base fixture's current step is the `depart` step
100 m away — outside the 30 m completion radius — yet `determineCurrentStep`
advances past it (to index 1), so the advance-iff-within-30 m biconditional
fails. -/
theorem c2_depart_counterexample :
    fxState.routeSteps.get? fxState.currentStepIndex = some fxDepart ∧
    ¬dist100 (posOr0 fxState.currentPosition) fxDepart.maneuver.location < 30 ∧
    determineCurrentStep dist100 fxState = 1 := by
  refine ⟨rfl, ?_, ?_⟩
  · exact of_decide_eq_false (by with_unfolding_all rfl)
  · with_unfolding_all rfl

/-- One iteration of `determineCurrentStep`: at a non-final step the index
advances (and the loop re-runs from `i + 1`) exactly when the step is a
`depart` step or its maneuver point is within the 30 m completion radius;
otherwise the loop stops at `i`. -/
theorem determineCurrentStep_cons (distM : ℚ × ℚ → ℚ × ℚ → ℚ) (s : NavState) (i : ℕ)
    (step : Step) (hidx : s.currentStepIndex = i)
    (hstep : s.routeSteps.get? i = some step) (hi : i < s.routeSteps.length - 1) :
    determineCurrentStep distM s =
      if step.maneuver.type = "depart" ∨
          distM (posOr0 s.currentPosition) step.maneuver.location < 30 then
        determineCurrentStep distM { s with currentStepIndex := i + 1 }
      else i := by
  obtain ⟨hlt, hget⟩ := List.get?_eq_some.mp hstep
  have hlen0 : ¬s.routeSteps.length = 0 := by omega
  simp only [determineCurrentStep, hlen0, if_false, hidx]
  obtain ⟨m, hm⟩ : ∃ m, s.routeSteps.length = m + 1 := ⟨s.routeSteps.length - 1, by omega⟩
  rw [hm, advanceLoop, dif_pos hi]
  dsimp only
  rw [hget]
  by_cases hdep : step.maneuver.type = "depart"
  · rw [if_pos hdep, if_pos (Or.inl hdep)]
    exact advanceLoop_fuel_eq distM s.routeSteps (posOr0 s.currentPosition) m (m + 1)
      (i + 1) (by omega) (by omega)
  · rw [if_neg hdep]
    by_cases hdist : distM (posOr0 s.currentPosition) step.maneuver.location < 30
    · rw [if_pos hdist, if_pos (Or.inr hdist)]
      exact advanceLoop_fuel_eq distM s.routeSteps (posOr0 s.currentPosition) m (m + 1)
        (i + 1) (by omega) (by omega)
    · rw [if_neg hdist, if_neg (not_or.mpr ⟨hdep, hdist⟩)]

/-- C2 (amended): `determineCurrentStep` advances past a non-final `depart`
step unconditionally; past any other non-final step exactly when the
distance to its maneuver point is strictly below 30 m, stopping there
otherwise; in particular on a 3-step route whose first two steps are not
`depart` steps it returns index 1 when the user is 1 m from step 0's
maneuver point (with step 1's maneuver at least 30 m away) and index 0 when
the user is 31 m away. -/
theorem c2_step_advancement :
    (∀ (distM : ℚ × ℚ → ℚ × ℚ → ℚ) (s : NavState) (i : ℕ) (step : Step),
      s.currentStepIndex = i → s.routeSteps.get? i = some step →
      i < s.routeSteps.length - 1 → step.maneuver.type ≠ "depart" →
      determineCurrentStep distM s =
        if distM (posOr0 s.currentPosition) step.maneuver.location < 30 then
          determineCurrentStep distM { s with currentStepIndex := i + 1 }
        else i)
  ∧ (∀ (distM : ℚ × ℚ → ℚ × ℚ → ℚ) (s : NavState) (i : ℕ) (step : Step),
      s.currentStepIndex = i → s.routeSteps.get? i = some step →
      i < s.routeSteps.length - 1 → step.maneuver.type = "depart" →
      determineCurrentStep distM s =
        determineCurrentStep distM { s with currentStepIndex := i + 1 })
  ∧ (∀ (distM : ℚ × ℚ → ℚ × ℚ → ℚ) (s : NavState) (st0 st1 st2 : Step),
      s.routeSteps = [st0, st1, st2] → s.currentStepIndex = 0 →
      st0.maneuver.type ≠ "depart" → st1.maneuver.type ≠ "depart" →
      distM (posOr0 s.currentPosition) st0.maneuver.location = 1 →
      ¬distM (posOr0 s.currentPosition) st1.maneuver.location < 30 →
      determineCurrentStep distM s = 1)
  ∧ (∀ (distM : ℚ × ℚ → ℚ × ℚ → ℚ) (s : NavState) (st0 st1 st2 : Step),
      s.routeSteps = [st0, st1, st2] → s.currentStepIndex = 0 →
      st0.maneuver.type ≠ "depart" →
      distM (posOr0 s.currentPosition) st0.maneuver.location = 31 →
      determineCurrentStep distM s = 0) := by
  refine ⟨?_, ?_, ?_, ?_⟩
  · intro distM s i step hidx hstep hi hdep
    rw [determineCurrentStep_cons distM s i step hidx hstep hi]
    by_cases hdist : distM (posOr0 s.currentPosition) step.maneuver.location < 30
    · rw [if_pos (Or.inr hdist), if_pos hdist]
    · rw [if_neg (not_or.mpr ⟨hdep, hdist⟩), if_neg hdist]
  · intro distM s i step hidx hstep hi hdep
    rw [determineCurrentStep_cons distM s i step hidx hstep hi, if_pos (Or.inl hdep)]
  · intro distM s st0 st1 st2 hsteps hidx h0dep h1dep hd0 hd1
    have h1 : determineCurrentStep distM s =
        determineCurrentStep distM { s with currentStepIndex := 1 } := by
      rw [determineCurrentStep_cons distM s 0 st0 hidx (by rw [hsteps]; rfl)
        (by rw [hsteps]; simp)]
      rw [if_pos (Or.inr (by rw [hd0]; norm_num))]
    rw [h1]
    rw [determineCurrentStep_cons distM { s with currentStepIndex := 1 } 1 st1 rfl
      (by simp [hsteps]) (by simp [hsteps])]
    rw [if_neg (not_or.mpr ⟨h1dep, by simpa using hd1⟩)]
  · intro distM s st0 st1 st2 hsteps hidx h0dep hd0
    rw [determineCurrentStep_cons distM s 0 st0 hidx (by rw [hsteps]; rfl)
      (by rw [hsteps]; simp)]
    rw [if_neg (not_or.mpr ⟨h0dep, by rw [hd0]; norm_num⟩)]

/-- A second left-turn step at a different maneuver point. -/
def fxTurn2 : Step := ⟨⟨"turn", some "right", (9, 9)⟩, "D St", 12, 6, []⟩

/-- C2 witness: the amended statement's parts evaluated on concrete
sessions — the non-depart characterization on the single-turn fixture, the
depart skip on the base fixture, and the two 3-step scenarios. -/
theorem c2_step_advancement_witness :
    (determineCurrentStep dist100 { fxState with routeSteps := [fxTurn, fxArrive] } =
      if dist100 (posOr0 fxState.currentPosition) fxTurn.maneuver.location < 30 then
        determineCurrentStep dist100
          { fxState with routeSteps := [fxTurn, fxArrive], currentStepIndex := 1 }
      else 0) ∧
    (determineCurrentStep dist100 fxState =
      determineCurrentStep dist100 { fxState with currentStepIndex := 1 }) ∧
    determineCurrentStep (fun _ q => if q = (1, 1) then 1 else 100)
      { fxState with routeSteps := [fxTurn, fxTurn2, fxArrive] } = 1 ∧
    determineCurrentStep (fun _ q => if q = (1, 1) then 31 else 100)
      { fxState with routeSteps := [fxTurn, fxTurn2, fxArrive] } = 0 := by
  refine ⟨?_, ?_, ?_, ?_⟩
  · exact c2_step_advancement.1 dist100 _ 0 fxTurn rfl rfl (by decide) (by decide)
  · exact c2_step_advancement.2.1 dist100 fxState 0 fxDepart rfl rfl (by decide) rfl
  · exact c2_step_advancement.2.2.1 _ _ fxTurn fxTurn2 fxArrive rfl rfl (by decide)
      (by decide) (by with_unfolding_all rfl)
      (of_decide_eq_false (by with_unfolding_all rfl))
  · exact c2_step_advancement.2.2.2 _ _ fxTurn fxTurn2 fxArrive rfl rfl (by decide)
      (by with_unfolding_all rfl)

/- ## Codec lemmas for the round trip -/

/-- The varint writer is fuel-insensitive once the fuel exceeds the
value. -/
theorem writeVarint_eq : ∀ r f, r < f → writeVarint f r = encodeVarint r := by
  intro r
  induction r using Nat.strong_induction_on with
  | _ r ih =>
    intro f hf
    obtain ⟨g, hg⟩ : ∃ g, f = g + 1 := ⟨f - 1, by omega⟩
    subst hg
    by_cases hr : r < 32
    · simp only [encodeVarint, writeVarint, if_pos hr]
    · simp only [encodeVarint, writeVarint, if_neg hr]
      rw [ih (r / 32) (by omega) g (by omega), ih (r / 32) (by omega) r (by omega)]

/-- Reading back one encoded varint group recovers the value and leaves the
tail untouched, for any shift and accumulator. -/
theorem readVarint_encodeVarint :
    ∀ (r : ℕ) (tail : List ℕ) (shift acc : ℕ),
      readVarint (encodeVarint r ++ tail) shift acc = (acc + r * 2 ^ shift, tail) := by
  intro r
  induction r using Nat.strong_induction_on with
  | _ r ih =>
    intro tail shift acc
    by_cases hr : r < 32
    · simp only [encodeVarint, writeVarint, if_pos hr, List.cons_append, List.nil_append,
        readVarint, Nat.add_sub_cancel]
      rw [if_neg (by omega), Nat.mod_eq_of_lt hr]
    · simp only [encodeVarint, writeVarint, if_neg hr, List.cons_append]
      rw [writeVarint_eq (r / 32) r (by omega)]
      simp only [readVarint, Nat.add_sub_cancel]
      rw [if_pos (by omega), ih (r / 32) (by omega) tail (shift + 5)]
      rw [Prod.mk.injEq]
      refine ⟨?_, rfl⟩
      have hmod : (r % 32 + 32) % 32 = r % 32 := by omega
      rw [hmod, pow_add]
      conv_rhs => rw [← Nat.div_add_mod r 32]
      ring

/-- Zig-zag decoding inverts zig-zag encoding on every integer delta. -/
theorem zigzag_roundtrip (d : ℤ) : zigzagDecode (zigzagEncode d) = d := by
  unfold zigzagEncode zigzagDecode
  split_ifs <;> omega

/-- The reference encoder emits at least one char per varint. -/
theorem encodeVarint_ne_nil (r : ℕ) : encodeVarint r ≠ [] := by
  simp only [encodeVarint, writeVarint]
  split_ifs <;> simp

/-- Decoding an encoded delta list with sufficient fuel appends the decoded
points (at 1e-5 precision) to the accumulated output. -/
theorem decodeLoop_encodeDeltas :
    ∀ (ps : List (ℤ × ℤ)) (pla pln : ℤ) (acc : List (ℚ × ℚ)) (fuel : ℕ),
      ps.length ≤ fuel →
      decodeLoop fuel (encodeDeltas ps pla pln) pla pln acc =
        acc.reverse ++ ps.map (fun p => ((p.1 : ℚ) / 100000, (p.2 : ℚ) / 100000)) := by
  intro ps
  induction ps with
  | nil =>
    intro pla pln acc fuel h
    simp [encodeDeltas, decodeLoop]
  | cons p rest ih =>
    intro pla pln acc fuel h
    obtain ⟨la, ln⟩ := p
    obtain ⟨f, hf⟩ : ∃ f, fuel = f + 1 := ⟨fuel - 1, by simp at h; omega⟩
    subst hf
    rw [encodeDeltas, List.append_assoc]
    obtain ⟨c, cs, hc⟩ : ∃ c cs, encodeVarint (zigzagEncode (la - pla)) = c :: cs := by
      cases hEV : encodeVarint (zigzagEncode (la - pla)) with
      | nil => exact absurd hEV (encodeVarint_ne_nil _)
      | cons c cs => exact ⟨c, cs, rfl⟩
    rw [hc, List.cons_append, decodeLoop]
    rw [← List.cons_append, ← hc, readVarint_encodeVarint]
    rw [readVarint_encodeVarint]
    simp only [pow_zero, mul_one, Nat.zero_add, zigzag_roundtrip]
    rw [show pla + (la - pla) = la by ring, show pln + (ln - pln) = ln by ring]
    rw [ih la ln _ f (by simp at h; omega)]
    simp

/-- Each encoded point contributes at least one char (in fact at least
two), so the encoded length bounds the point count — this makes the
decoder's `encoded.length` fuel sufficient. -/
theorem length_le_encodeDeltas :
    ∀ (ps : List (ℤ × ℤ)) (pla pln : ℤ), ps.length ≤ (encodeDeltas ps pla pln).length := by
  intro ps
  induction ps with
  | nil => intro pla pln; simp [encodeDeltas]
  | cons p rest ih =>
    intro pla pln
    obtain ⟨la, ln⟩ := p
    rw [encodeDeltas]
    have h1 : 1 ≤ (encodeVarint (zigzagEncode (la - pla))).length := by
      cases hEV : encodeVarint (zigzagEncode (la - pla)) with
      | nil => exact absurd hEV (encodeVarint_ne_nil _)
      | cons c cs => simp
    have h2 := ih la ln
    simp only [List.length_append, List.length_cons]
    omega

/- ## C7 -/

/-- C7: decoding is a left inverse of the spec's reference encoder — for
every coordinate sequence representable at 1e-5 degree precision (given as
1e-5-scaled integers within geographic range, where JS 32-bit bitwise
arithmetic cannot wrap), decoding the encoding recovers exactly the
coordinates, and decoding the empty string yields the empty sequence. -/
theorem c7_polyline_roundtrip :
    (∀ ps : List (ℤ × ℤ),
      (∀ p ∈ ps, p.1.natAbs ≤ 9000000 ∧ p.2.natAbs ≤ 18000000) →
      decodePolyline (encodePolyline ps) =
        ps.map (fun p => ((p.1 : ℚ) / 100000, (p.2 : ℚ) / 100000)))
  ∧ decodePolyline [] = [] := by
  constructor
  · intro ps hbound
    unfold decodePolyline encodePolyline
    rw [decodeLoop_encodeDeltas ps 0 0 [] _ (length_le_encodeDeltas ps 0 0)]
    simp
  · rfl

/-- C7 witness: the round trip evaluated on a concrete two-point sequence
(38.5, -120.2) and (40.7, -120.95) at 1e-5-scaled precision. -/
theorem c7_polyline_roundtrip_witness :
    decodePolyline (encodePolyline [(3850000, -12020000), (4070000, -12095000)]) =
      [((3850000 : ℤ), (-12020000 : ℤ)), (4070000, -12095000)].map
        (fun p => ((p.1 : ℚ) / 100000, (p.2 : ℚ) / 100000)) :=
  c7_polyline_roundtrip.1 [(3850000, -12020000), (4070000, -12095000)] (by decide)
